import Mathlib

/-!
Verification of the cyclical learning-rate scheduler in `src/cyclic_lr.py`
(class `CyclicLR`, method `schedule`).

The numeric semantics of the Python code is modelled over `ℚ`: every value
the scheduler ever produces on the inputs of interest is an exact rational,
so the closed-form arithmetic of `schedule` is embedded verbatim with
rational arithmetic. Python exceptions that the code can raise are made
explicit through an error type:
  * calling the unresolved `None` amplitude raises `TypeError`;
  * the `exp_range` lambda mentions an unbound name `gamma`, so invoking it
    raises `NameError`;
  * `epochs / (2 * self.step_size)` raises `ZeroDivisionError` when
    `step_size == 0`.
The method mutates `self` (it lazily resolves `scale_fn` and `scale_mode`),
so `schedule` returns the result paired with the updated scheduler state.
-/

/-- The Python exceptions reachable inside `CyclicLR.schedule`. -/
inductive PyError where
  | typeError
  | nameError
  | zeroDivision
deriving DecidableEq, Repr

/-- The amplitude ("scale") functions a `CyclicLR` can hold: the three
defaults installed by `schedule` for the recognised modes, or a caller
supplied function. -/
inductive Amplitude where
  | tri
  | tri2
  | expRange
  | custom (f : ℚ → ℚ)

/-- Calling the amplitude function, as the Python lambdas behave:
`tri` is `lambda x: 1.`; `tri2` is `lambda x: 1 / (2.**(x - 1))` (the
source only ever applies it to the integer `cycle`, so the rational
embedding uses the integer part of the argument as the exponent, which is
exact at every reachable call); `expRange` is `lambda x: gamma ** x` whose
body mentions the unbound name `gamma` and therefore raises `NameError`
when invoked. -/
def Amplitude.apply : Amplitude → ℚ → Except PyError ℚ
  | .tri, _ => .ok 1
  | .tri2, x => .ok (1 / (2 : ℚ) ^ (⌊x⌋ - 1))
  | .expRange, _ => .error .nameError
  | .custom f, x => .ok (f x)

/-- The `attr.s` fields of `CyclicLR`, with their declared defaults. -/
structure CyclicLR where
  base_lr : ℚ := 1 / 1000
  max_lr : ℚ := 6 / 1000
  step_size : ℚ := 2000
  scale_mode : String := "cycle"
  scale_fn : Option Amplitude := none
  mode : String := "triangular"

/-- Lines 48–60 of `schedule`: lazily resolve `scale_fn`/`scale_mode` from
`mode` when `scale_fn` is `None`; otherwise reassign both fields to
themselves (a no-op). An unrecognised `mode` leaves `scale_fn` unset. -/
def CyclicLR.resolve (c : CyclicLR) : CyclicLR :=
  match c.scale_fn with
  | none =>
      if c.mode = "triangular" then
        { c with scale_fn := some .tri, scale_mode := "cycle" }
      else if c.mode = "triangular2" then
        { c with scale_fn := some .tri2, scale_mode := "cycle" }
      else if c.mode = "exp_range" then
        { c with scale_fn := some .expRange, scale_mode := "iterations" }
      else c
  | some _ => c

/-- Line 62: `cycle = np.floor(1 + epochs / (2 * self.step_size))`.
`np.floor` of an exact value is the integer floor. -/
def CyclicLR.cycle (c : CyclicLR) (epochs : ℚ) : ℤ :=
  ⌊1 + epochs / (2 * c.step_size)⌋

/-- Line 63: `x = np.abs(epochs / self.step_size - 2 * cycle + 1)`. -/
def CyclicLR.x (c : CyclicLR) (epochs : ℚ) : ℚ :=
  |epochs / c.step_size - 2 * (c.cycle epochs : ℚ) + 1|

/-- `CyclicLR.schedule` (lines 47–70): resolve the amplitude function, then
compute the rate. The division by `2 * step_size` raises
`ZeroDivisionError` when `step_size = 0`; applying an unresolved (`None`)
amplitude raises `TypeError`. Returns the result together with the mutated
scheduler state. -/
def CyclicLR.schedule (c : CyclicLR) (epochs : ℚ) : Except PyError ℚ × CyclicLR :=
  let r := c.resolve
  if r.step_size = 0 then (.error .zeroDivision, r)
  else
    match r.scale_fn with
    | none => (.error .typeError, r)
    | some f =>
        if r.scale_mode = "cycle" then
          ((f.apply (r.cycle epochs : ℚ)).map
            (fun a => r.base_lr + (r.max_lr - r.base_lr) * max 0 (1 - r.x epochs) * a), r)
        else
          ((f.apply epochs).map
            (fun a => r.base_lr + (r.max_lr - r.base_lr) * max 0 (1 - r.x epochs) * a), r)

/-- Convenience: the rate (or error) a call returns, dropping the state. -/
def CyclicLR.rate (c : CyclicLR) (epochs : ℚ) : Except PyError ℚ :=
  (c.schedule epochs).1

/-- The call succeeded and the returned rate lies within `[lo, hi]`. -/
def okWithin (lo hi : ℚ) : Except PyError ℚ → Prop
  | .ok r => lo ≤ r ∧ r ≤ hi
  | .error _ => False

/-- The `else` branch of the lazy resolution (lines 58–60) reassigns
`scale_fn` and `scale_mode` to themselves: when `scale_fn` is already set,
resolution changes nothing. -/
theorem resolve_of_some (c : CyclicLR) (f : Amplitude) (hf : c.scale_fn = some f) :
    c.resolve = c := by
  unfold CyclicLR.resolve
  rw [hf]

/-- Once the amplitude function is resolved and its application succeeds,
`schedule` returns exactly the closed-form rate of lines 65–70. -/
theorem schedule_eq_of_resolved (c : CyclicLR) (f : Amplitude) (A e : ℚ)
    (hs : c.step_size ≠ 0) (hf : c.scale_fn = some f)
    (hA : f.apply (if c.scale_mode = "cycle" then (c.cycle e : ℚ) else e) = .ok A) :
    (c.schedule e).1 =
      .ok (c.base_lr + (c.max_lr - c.base_lr) * max 0 (1 - c.x e) * A) := by
  have hr : c.resolve = c := resolve_of_some c f hf
  by_cases hm : c.scale_mode = "cycle"
  · rw [if_pos hm] at hA
    simp only [CyclicLR.schedule, hr, hf, if_neg hs, if_pos hm, hA, Except.map]
  · rw [if_neg hm] at hA
    simp only [CyclicLR.schedule, hr, hf, if_neg hs, if_neg hm, hA, Except.map]

/-- `C1`: for every epoch, once the amplitude function is resolved (and it
evaluates to `A` at the argument `scale_mode` selects: the cycle for
`'cycle'`, the raw epoch otherwise), `schedule` returns
`base_lr + (max_lr - base_lr) * max 0 (1 - x) * A` with
`cycle = ⌊1 + epoch / (2 * step_size)⌋` and
`x = |epoch / step_size - 2 * cycle + 1|`. -/
theorem c1_schedule_formula (c : CyclicLR) (f : Amplitude) (A e : ℚ)
    (hs : c.step_size ≠ 0) (hf : c.scale_fn = some f)
    (hA : f.apply (if c.scale_mode = "cycle" then (c.cycle e : ℚ) else e) = .ok A) :
    (c.schedule e).1 =
      .ok (c.base_lr + (c.max_lr - c.base_lr) * max 0 (1 - c.x e) * A) :=
  schedule_eq_of_resolved c f A e hs hf hA

/-- Witness for `C1` at the default configuration with the constant
amplitude installed and epoch 100. -/
theorem c1_schedule_formula_witness :
    ({ scale_fn := some .tri } : CyclicLR).step_size ≠ 0 ∧
    ({ scale_fn := some .tri } : CyclicLR).scale_fn = some .tri ∧
    (({ scale_fn := some .tri } : CyclicLR).schedule 100).1 =
      .ok (({ scale_fn := some .tri } : CyclicLR).base_lr +
        (({ scale_fn := some .tri } : CyclicLR).max_lr -
          ({ scale_fn := some .tri } : CyclicLR).base_lr) *
        max 0 (1 - ({ scale_fn := some .tri } : CyclicLR).x 100) * 1) :=
  ⟨by simp, rfl, c1_schedule_formula _ .tri 1 100 (by simp) rfl rfl⟩

/-- `C2`: with `mode='triangular'` and the default configuration
(`base_lr=0.001`, `max_lr=0.006`, `step_size=2000`), `schedule` returns
`base_lr` at epoch 0, `max_lr` at epoch 2000, and `base_lr` again at
epoch 4000. -/
theorem c2_triangular_landmarks :
    ({} : CyclicLR).rate 0 = .ok (1 / 1000) ∧
    ({} : CyclicLR).rate 2000 = .ok (6 / 1000) ∧
    ({} : CyclicLR).rate 4000 = .ok (1 / 1000) := by
  refine ⟨?_, ?_, ?_⟩ <;>
    norm_num +decide [CyclicLR.rate, CyclicLR.schedule, CyclicLR.resolve, CyclicLR.cycle,
      CyclicLR.x, Amplitude.apply, Except.map, abs_of_nonneg, max_eq_right, abs_of_nonpos, max_eq_left]

/-- `C3` fails on the code: in `triangular2` mode with the default
configuration, epoch 4000 is a cycle boundary, where the triangular factor
is 0, so `schedule` returns `base_lr = 0.001` and not
`base_lr + (max_lr - base_lr)/2 = 0.0035`. -/
theorem c3_counterexample :
    ({ mode := "triangular2" } : CyclicLR).rate 4000 = .ok (1 / 1000) ∧
    (1 / 1000 : ℚ) ≠ 1 / 1000 + (6 / 1000 - 1 / 1000) / 2 := by
  constructor
  · norm_num +decide [CyclicLR.rate, CyclicLR.schedule, CyclicLR.resolve, CyclicLR.cycle,
      CyclicLR.x, Amplitude.apply, Except.map, abs_of_nonneg, max_eq_right, abs_of_nonpos, max_eq_left]
  · norm_num

/-- `C3` amended: in `triangular2` mode with the default configuration, the
rate at epoch 2000 is the full cycle-1 peak `max_lr = 0.006`; epoch 4000 is
the boundary between cycles 1 and 2, where the rate is `base_lr = 0.001`;
the peak of cycle 2 occurs at epoch 6000, where the rate is
`base_lr + (max_lr - base_lr)/2 = 0.0035`, half the cycle-1 peak above
`base_lr`. -/
theorem c3_amended_triangular2_peaks :
    ({ mode := "triangular2" } : CyclicLR).rate 2000 = .ok (6 / 1000) ∧
    ({ mode := "triangular2" } : CyclicLR).rate 4000 = .ok (1 / 1000) ∧
    ({ mode := "triangular2" } : CyclicLR).rate 6000 = .ok (7 / 2000) := by
  refine ⟨?_, ?_, ?_⟩ <;>
    norm_num +decide [CyclicLR.rate, CyclicLR.schedule, CyclicLR.resolve, CyclicLR.cycle,
      CyclicLR.x, Amplitude.apply, Except.map, abs_of_nonneg, max_eq_right, abs_of_nonpos, max_eq_left]

/-- `C5` evaluated on the code: construction performs no validation of
`step_size`, and with the negative `step_size = -2000` a call to `schedule`
silently returns the finite rate `0.0035` with no error of any kind; with
`step_size = 0` the division at line 62 raises `ZeroDivisionError`. -/
theorem c5_step_size_unvalidated :
    ({ step_size := -2000 } : CyclicLR).rate 1000 = .ok (7 / 2000) ∧
    ({ step_size := 0 } : CyclicLR).rate 1000 = .error .zeroDivision := by
  constructor <;>
    norm_num +decide [CyclicLR.rate, CyclicLR.schedule, CyclicLR.resolve, CyclicLR.cycle,
      CyclicLR.x, Amplitude.apply, Except.map, abs_of_nonneg, max_eq_right, abs_of_nonpos, max_eq_left]

/-- `C9`: with the default configuration, the rates at epochs
0, 500, 1000, 1500, 2000 form a strictly increasing sequence reaching
`max_lr = 0.006` at epoch 2000. -/
theorem c9_default_strictly_increasing :
    ({} : CyclicLR).rate 0 = .ok (1 / 1000) ∧
    ({} : CyclicLR).rate 500 = .ok (9 / 4000) ∧
    ({} : CyclicLR).rate 1000 = .ok (7 / 2000) ∧
    ({} : CyclicLR).rate 1500 = .ok (19 / 4000) ∧
    ({} : CyclicLR).rate 2000 = .ok (6 / 1000) ∧
    (1 / 1000 : ℚ) < 9 / 4000 ∧ (9 / 4000 : ℚ) < 7 / 2000 ∧
    (7 / 2000 : ℚ) < 19 / 4000 ∧ (19 / 4000 : ℚ) < 6 / 1000 := by
  refine ⟨?_, ?_, ?_, ?_, ?_, by norm_num, by norm_num, by norm_num, by norm_num⟩ <;>
    norm_num +decide [CyclicLR.rate, CyclicLR.schedule, CyclicLR.resolve, CyclicLR.cycle,
      CyclicLR.x, Amplitude.apply, Except.map, abs_of_nonneg, max_eq_right, abs_of_nonpos, max_eq_left]

/-- `c.x` is an absolute value, hence nonnegative. -/
theorem x_nonneg (c : CyclicLR) (e : ℚ) : 0 ≤ c.x e :=
  abs_nonneg _

/-- The triangular factor `max 0 (1 - x)` always lies in `[0, 1]`. -/
theorem triangle_factor_mem (c : CyclicLR) (e : ℚ) :
    0 ≤ max 0 (1 - c.x e) ∧ max 0 (1 - c.x e) ≤ 1 :=
  ⟨le_max_left _ _, max_le zero_le_one (by have := x_nonneg c e; linarith)⟩

/-- Resolution is idempotent: a second pass through lines 48–60 changes
nothing. -/
theorem resolve_idem (c : CyclicLR) : c.resolve.resolve = c.resolve := by
  cases hc : c.scale_fn with
  | some f => rw [resolve_of_some c f hc, resolve_of_some c f hc]
  | none =>
    by_cases h1 : c.mode = "triangular" <;> by_cases h2 : c.mode = "triangular2" <;>
      by_cases h3 : c.mode = "exp_range" <;>
      simp [CyclicLR.resolve, hc, h1, h2, h3]

/-- A call on `c` behaves exactly as a call on the resolved `c`. -/
theorem schedule_resolve_eq (c : CyclicLR) (e : ℚ) :
    c.schedule e = c.resolve.schedule e := by
  simp only [CyclicLR.schedule, resolve_idem]

/-- The state a call returns is always the resolved configuration. -/
theorem schedule_snd (c : CyclicLR) (e : ℚ) : (c.schedule e).2 = c.resolve := by
  simp only [CyclicLR.schedule]
  split
  · rfl
  split
  · rfl
  split <;> rfl

/-- With a positive `step_size` and a nonnegative epoch, the cycle index is
at least 1. -/
theorem one_le_cycle (c : CyclicLR) (e : ℚ) (he : 0 ≤ e) (hs : 0 < c.step_size) :
    1 ≤ c.cycle e := by
  have h2 : (0:ℚ) < 2 * c.step_size := by linarith
  have h3 : (0:ℚ) ≤ e / (2 * c.step_size) := div_nonneg he (le_of_lt h2)
  rw [CyclicLR.cycle, Int.le_floor]
  push_cast
  linarith

/-- The closed-form rate stays within `[b, m]` when the triangular factor
and the amplitude both lie in `[0, 1]`. -/
theorem rate_bounds (b m t a : ℚ) (hbm : b ≤ m) (ht0 : 0 ≤ t) (ht1 : t ≤ 1)
    (ha0 : 0 ≤ a) (ha1 : a ≤ 1) :
    b ≤ b + (m - b) * t * a ∧ b + (m - b) * t * a ≤ m := by
  have hmb : 0 ≤ m - b := sub_nonneg.mpr hbm
  have hta0 : 0 ≤ t * a := mul_nonneg ht0 ha0
  have hta1 : t * a ≤ 1 := mul_le_one₀ ht1 ha0 ha1
  have h1 : 0 ≤ (m - b) * (t * a) := mul_nonneg hmb hta0
  have h2 : (m - b) * (t * a) ≤ (m - b) * 1 := mul_le_mul_of_nonneg_left hta1 hmb
  constructor <;> nlinarith [h1, h2]

/-- `C4`: for every epoch `e ≥ 0`, if `max_lr ≥ base_lr`, `step_size > 0`
and the mode is `triangular` or `triangular2` with `scale_fn` unset, the
call succeeds and the rate satisfies `base_lr ≤ rate ≤ max_lr`. -/
theorem c4_rate_bounded (c : CyclicLR) (e : ℚ)
    (he : 0 ≤ e) (hlr : c.base_lr ≤ c.max_lr) (hs : 0 < c.step_size)
    (hfn : c.scale_fn = none)
    (hm : c.mode = "triangular" ∨ c.mode = "triangular2") :
    okWithin c.base_lr c.max_lr (c.schedule e).1 := by
  have hs0 : c.step_size ≠ 0 := ne_of_gt hs
  rcases hm with hm | hm
  · have hres : c.resolve = { c with scale_fn := some .tri, scale_mode := "cycle" } := by
      simp +decide [CyclicLR.resolve, hfn, hm]
    rw [schedule_resolve_eq, hres]
    have hr := schedule_eq_of_resolved
      { c with scale_fn := some .tri, scale_mode := "cycle" } .tri 1 e hs0 rfl rfl
    rw [hr]
    have hb := rate_bounds c.base_lr c.max_lr
      (max 0 (1 - ({ c with scale_fn := some .tri, scale_mode := "cycle" } : CyclicLR).x e)) 1
      hlr (triangle_factor_mem _ e).1 (triangle_factor_mem _ e).2 zero_le_one le_rfl
    exact ⟨hb.1, hb.2⟩
  · have hres : c.resolve = { c with scale_fn := some .tri2, scale_mode := "cycle" } := by
      simp +decide [CyclicLR.resolve, hfn, hm]
    rw [schedule_resolve_eq, hres]
    have hcy : 1 ≤ ({ c with scale_fn := some .tri2, scale_mode := "cycle" } : CyclicLR).cycle e :=
      one_le_cycle _ e he hs
    have happ : Amplitude.tri2.apply
        (({ c with scale_fn := some .tri2, scale_mode := "cycle" } : CyclicLR).cycle e : ℚ) =
        .ok (1 / (2:ℚ) ^ (({ c with scale_fn := some .tri2, scale_mode := "cycle" } : CyclicLR).cycle e - 1)) := by
      simp [Amplitude.apply, Int.floor_intCast]
    have hr := schedule_eq_of_resolved
      { c with scale_fn := some .tri2, scale_mode := "cycle" } .tri2
      (1 / (2:ℚ) ^ (({ c with scale_fn := some .tri2, scale_mode := "cycle" } : CyclicLR).cycle e - 1)) e
      hs0 rfl (by rw [if_pos rfl]; exact happ)
    rw [hr]
    have hpos : (0:ℚ) < (2:ℚ) ^ (({ c with scale_fn := some .tri2, scale_mode := "cycle" } : CyclicLR).cycle e - 1) :=
      zpow_pos (by norm_num) _
    have hone : (1:ℚ) ≤ (2:ℚ) ^ (({ c with scale_fn := some .tri2, scale_mode := "cycle" } : CyclicLR).cycle e - 1) :=
      one_le_zpow₀ (by norm_num) (by omega)
    have hb := rate_bounds c.base_lr c.max_lr
      (max 0 (1 - ({ c with scale_fn := some .tri2, scale_mode := "cycle" } : CyclicLR).x e))
      (1 / (2:ℚ) ^ (({ c with scale_fn := some .tri2, scale_mode := "cycle" } : CyclicLR).cycle e - 1))
      hlr (triangle_factor_mem _ e).1 (triangle_factor_mem _ e).2
      (le_of_lt (div_pos one_pos hpos)) ((div_le_one hpos).mpr hone)
    exact ⟨hb.1, hb.2⟩

/-- The default configuration has `base_lr ≤ max_lr`. -/
theorem default_base_le_max : ({} : CyclicLR).base_lr ≤ ({} : CyclicLR).max_lr := by
  show (1:ℚ)/1000 ≤ 6/1000
  norm_num

/-- Witness for `C4` at the default configuration and epoch 500. -/
theorem c4_rate_bounded_witness :
    (0:ℚ) ≤ 500 ∧ ({} : CyclicLR).base_lr ≤ ({} : CyclicLR).max_lr ∧
    0 < ({} : CyclicLR).step_size ∧
    okWithin ({} : CyclicLR).base_lr ({} : CyclicLR).max_lr (({} : CyclicLR).schedule 500).1 :=
  ⟨by simp, default_base_le_max, by simp,
    c4_rate_bounded {} 500 (by simp) default_base_le_max (by simp) rfl (Or.inl rfl)⟩

/-- `C6`: with an unrecognised `mode` and no explicit `scale_fn`, the
resolution block falls through all three branches, leaves the amplitude
function unset, and the call fails with a `TypeError` when line 67 applies
the unset (`None`) amplitude. -/
theorem c6_unknown_mode_type_error (c : CyclicLR) (e : ℚ)
    (hfn : c.scale_fn = none)
    (h1 : c.mode ≠ "triangular") (h2 : c.mode ≠ "triangular2") (h3 : c.mode ≠ "exp_range")
    (hs : c.step_size ≠ 0) :
    (c.schedule e).1 = .error .typeError ∧ ((c.schedule e).2).scale_fn = none := by
  have hr : c.resolve = c := by
    simp only [CyclicLR.resolve, hfn, if_neg h1, if_neg h2, if_neg h3]
  constructor
  · simp only [CyclicLR.schedule, hr, hfn, if_neg hs]
  · rw [schedule_snd, hr, hfn]

/-- Witness for `C6` with `mode="banana"` and epoch 0. -/
theorem c6_unknown_mode_type_error_witness :
    (({ mode := "banana" } : CyclicLR).schedule 0).1 = .error .typeError ∧
    ((({ mode := "banana" } : CyclicLR).schedule 0).2).scale_fn = none :=
  c6_unknown_mode_type_error { mode := "banana" } 0 rfl
    (by decide) (by decide) (by decide) (by simp)

/-- `C7`: with `mode='exp_range'` and `scale_fn` unset, resolution installs
the `lambda x: gamma ** x` amplitude, whose body refers to the unbound
name `gamma`; the call therefore fails with a `NameError` when line 70
invokes it. -/
theorem c7_exp_range_name_error (c : CyclicLR) (e : ℚ)
    (hfn : c.scale_fn = none) (hm : c.mode = "exp_range") (hs : c.step_size ≠ 0) :
    (c.schedule e).1 = .error .nameError := by
  have h1 : c.mode ≠ "triangular" := by rw [hm]; decide
  have h2 : c.mode ≠ "triangular2" := by rw [hm]; decide
  have hres : c.resolve = { c with scale_fn := some .expRange, scale_mode := "iterations" } := by
    simp only [CyclicLR.resolve, hfn]
    rw [if_neg h1, if_neg h2, if_pos hm]
  simp +decide only [CyclicLR.schedule, hres, Amplitude.apply, Except.map, if_neg hs,
    ite_self]

/-- Witness for `C7` at the default configuration with `mode="exp_range"`
and epoch 0. -/
theorem c7_exp_range_name_error_witness :
    (({ mode := "exp_range" } : CyclicLR).schedule 0).1 = .error .nameError :=
  c7_exp_range_name_error { mode := "exp_range" } 0 rfl rfl (by simp)

/-- `C8`: with a caller-supplied `scale_fn` and `scale_mode='iterations'`,
the value of `mode` has no effect on the result of any call, and no call
ever changes `scale_fn` or `scale_mode` (the resolution branch is a no-op
on an already-set amplitude). -/
theorem c8_custom_scale_fn_mode_irrelevant (c : CyclicLR) (f : Amplitude) (m : String) (e : ℚ)
    (hf : c.scale_fn = some f) (_hsm : c.scale_mode = "iterations") :
    (({ c with mode := m } : CyclicLR).schedule e).1 = (c.schedule e).1 ∧
    ((c.schedule e).2).scale_fn = c.scale_fn ∧
    ((c.schedule e).2).scale_mode = c.scale_mode := by
  have hr : c.resolve = c := resolve_of_some c f hf
  have hr2 : ({ c with mode := m, scale_fn := some f } : CyclicLR).resolve =
      { c with mode := m, scale_fn := some f } :=
    resolve_of_some _ f rfl
  refine ⟨?_, ?_, ?_⟩
  · simp only [CyclicLR.schedule, CyclicLR.cycle, CyclicLR.x, hr, hr2, hf]
    split
    · rfl
    split <;> rfl
  · rw [schedule_snd, hr]
  · rw [schedule_snd, hr]

/-- Witness for `C8`: an identity amplitude with `scale_mode='iterations'`,
comparing `mode='triangular'` against `mode='exp_range'` at epoch 100. -/
theorem c8_custom_scale_fn_mode_irrelevant_witness :
    (({ scale_mode := "iterations", scale_fn := some (.custom fun q => q), mode := "exp_range" } : CyclicLR).schedule 100).1 =
      (({ scale_mode := "iterations", scale_fn := some (.custom fun q => q) } : CyclicLR).schedule 100).1 ∧
    ((({ scale_mode := "iterations", scale_fn := some (.custom fun q => q) } : CyclicLR).schedule 100).2).scale_fn =
      ({ scale_mode := "iterations", scale_fn := some (.custom fun q => q) } : CyclicLR).scale_fn ∧
    ((({ scale_mode := "iterations", scale_fn := some (.custom fun q => q) } : CyclicLR).schedule 100).2).scale_mode =
      ({ scale_mode := "iterations", scale_fn := some (.custom fun q => q) } : CyclicLR).scale_mode :=
  c8_custom_scale_fn_mode_irrelevant
    { scale_mode := "iterations", scale_fn := some (.custom fun q => q) }
    (.custom fun q => q) "exp_range" 100 rfl rfl

/-- `C10`: at every cycle boundary `epoch = 2 * k * step_size` (`k` a
natural number, `step_size > 0`), the triangular factor `max 0 (1 - x)` is
exactly 0, so a resolved scheduler whose amplitude evaluates successfully
returns exactly `base_lr`, whatever the amplitude value and `scale_mode`. -/
theorem c10_cycle_boundary_base_lr (c : CyclicLR) (k : ℕ) (f : Amplitude) (A : ℚ)
    (hs : 0 < c.step_size) (hf : c.scale_fn = some f)
    (hA : f.apply (if c.scale_mode = "cycle"
        then (c.cycle (2 * (k : ℚ) * c.step_size) : ℚ)
        else 2 * (k : ℚ) * c.step_size) = .ok A) :
    max 0 (1 - c.x (2 * (k : ℚ) * c.step_size)) = 0 ∧
    (c.schedule (2 * (k : ℚ) * c.step_size)).1 = .ok c.base_lr := by
  have hs0 : c.step_size ≠ 0 := ne_of_gt hs
  have hcy : c.cycle (2 * (k : ℚ) * c.step_size) = (k : ℤ) + 1 := by
    rw [CyclicLR.cycle]
    have hdiv : (2 * (k : ℚ) * c.step_size) / (2 * c.step_size) = (k : ℚ) := by
      rw [show 2 * (k : ℚ) * c.step_size = (k : ℚ) * (2 * c.step_size) by ring]
      exact mul_div_cancel_right₀ _ (ne_of_gt (by linarith))
    rw [hdiv, show (1 : ℚ) + (k : ℚ) = (((k : ℤ) + 1 : ℤ) : ℚ) by push_cast; ring]
    exact Int.floor_intCast _
  have hx : c.x (2 * (k : ℚ) * c.step_size) = 1 := by
    rw [CyclicLR.x, hcy]
    rw [show (2 * (k : ℚ) * c.step_size) / c.step_size = 2 * (k : ℚ) from
      mul_div_cancel_right₀ _ hs0]
    rw [abs_eq (by norm_num : (0:ℚ) ≤ 1)]
    right
    push_cast
    ring
  have hmax : max 0 (1 - c.x (2 * (k : ℚ) * c.step_size)) = 0 := by
    rw [hx]
    norm_num
  refine ⟨hmax, ?_⟩
  rw [schedule_eq_of_resolved c f A (2 * (k : ℚ) * c.step_size) hs0 hf hA, hmax]
  norm_num

/-- Witness for `C10` at the default configuration with the constant
amplitude installed, at the boundary `epoch = 2 * 1 * 2000 = 4000`. -/
theorem c10_cycle_boundary_base_lr_witness :
    0 < ({ scale_fn := some .tri } : CyclicLR).step_size ∧
    max 0 (1 - ({ scale_fn := some .tri } : CyclicLR).x
      (2 * ((1 : ℕ) : ℚ) * ({ scale_fn := some .tri } : CyclicLR).step_size)) = 0 ∧
    (({ scale_fn := some .tri } : CyclicLR).schedule
      (2 * ((1 : ℕ) : ℚ) * ({ scale_fn := some .tri } : CyclicLR).step_size)).1 =
      .ok ({ scale_fn := some .tri } : CyclicLR).base_lr :=
  ⟨by simp, c10_cycle_boundary_base_lr { scale_fn := some .tri } 1 .tri 1 (by simp) rfl rfl⟩
